import Mathlib

/-!
Shallow embedding of the EXAM-MASTER crawler's extraction and
normalization pipeline (src/crawler/parser.py and src/crawler/crawler.py).

Strings are Lean `String`s; Python `dict`s (which preserve insertion
order and have unique keys) are modelled as association lists with a
`dictSet` assignment that overwrites an existing key in place and
otherwise appends.  Python's `str.strip()` is modelled over the ASCII
whitespace characters space, tab, CR and LF (the inputs of interest
contain no exotic Unicode whitespace).  `json.loads`, as used by the
parser on the `data-options` attribute, is modelled by `json_loads`, a
decoder for full JSON values: a decode error (`JSONDecodeError`) is
`none`, and a success carries the decoded value whatever its shape, so
that the merge loop's behaviour on non-object values — including its
uncaught `TypeError` — is represented faithfully.
-/

/-- ASCII whitespace predicate modelling the characters stripped by
Python's `str.strip()` on the inputs of interest. -/
def isSpaceChar : Char → Bool
  | ' ' | '\t' | '\n' | '\r' => true
  | _ => false

/-- Strip leading and trailing whitespace from a character list. -/
def stripCl (l : List Char) : List Char :=
  ((l.dropWhile isSpaceChar).reverse.dropWhile isSpaceChar).reverse

/-- Models Python `str.strip()` (no argument): remove leading and
trailing whitespace. -/
def pyStrip (s : String) : String := ⟨stripCl s.data⟩

/-- Models Python `str.rstrip(c)` for a single character `c`: remove
every trailing occurrence of `c`. -/
def pyRstripChar (s : String) (c : Char) : String :=
  ⟨(s.data.reverse.dropWhile (· == c)).reverse⟩

/-- Does `p` occur as a prefix of `l`?  (Helper for substring search and
replacement.) -/
def startsWithCl : List Char → List Char → Bool
  | [], _ => true
  | _ :: _, [] => false
  | p :: ps, c :: cs => p == c && startsWithCl ps cs

/-- Fuel-driven worker for `pyReplace`.  On exhausted fuel the remaining
input is returned unchanged; all uses supply fuel at least the length of
the input and a non-empty pattern, so the fuel never runs out. -/
def replaceAux : Nat → List Char → List Char → List Char → List Char
  | 0, s, _, _ => s
  | _ + 1, [], _, _ => []
  | fuel + 1, c :: rest, pat, rep =>
    if startsWithCl pat (c :: rest) then
      rep ++ replaceAux fuel (List.drop pat.length (c :: rest)) pat rep
    else
      c :: replaceAux fuel rest pat rep

/-- Models Python `str.replace(pat, rep)`: replace every non-overlapping
occurrence of `pat`, scanning left to right.  (All call sites in the
sources use a non-empty pattern.) -/
def pyReplace (s pat rep : String) : String :=
  ⟨replaceAux s.data.length s.data pat.data rep.data⟩

/-- Models Python's substring test `sub in s`. -/
def pyInStr (sub s : String) : Bool :=
  s.data.tails.any (fun t => startsWithCl sub.data t)

/-- Models Python slicing `s[n:]` (by code points). -/
def strDrop (s : String) (n : Nat) : String := ⟨s.data.drop n⟩

/-! ### Python dicts as association lists

The key type is always a Python `str`; the value type varies (strings
in the normalizer's records, decoded JSON values in the parser), so the
dict operations are generic in it. -/

/-- Key membership in a Python-dict model. -/
def dictContains {α : Type} (d : List (String × α)) (k : String) : Bool :=
  d.any (fun p => p.1 == k)

/-- Lookup in a Python-dict model. -/
def dictGet {α : Type} (d : List (String × α)) (k : String) : Option α :=
  (d.find? (fun p => p.1 == k)).map (·.2)

/-- Models Python dict assignment `d[k] = v`: overwrite the entry for
an existing key in place (keeping its position), otherwise append the
new entry.  A Python dict has unique keys, so overwriting the first
occurrence is exact. -/
def dictSet {α : Type} : List (String × α) → String → α → List (String × α)
  | [], k, v => [(k, v)]
  | p :: rest, k, v => if p.1 = k then (k, v) :: rest else p :: dictSet rest k v

/-! ### A decoder for JSON values

Models `json.loads` as applied by the parser to the cleaned
`data-options` attribute.  A decode error (`json.JSONDecodeError`, the
one exception the parser catches) is `none`; a success carries the
decoded value whatever its shape — object, array, string, number,
boolean or null.  Outside the modelled subset: the non-standard
NaN/Infinity extensions and `\u` escapes in the surrogate range are
treated as decode errors.  -/

/-- JSON whitespace (the same four ASCII characters as `isSpaceChar`). -/
def isJsonWs : Char → Bool
  | '\t' => true
  | '\n' => true
  | '\r' => true
  | ' ' => true
  | _ => false

/-- The table of two-character JSON escapes (the `\uXXXX` form is
handled separately in `parseJString`). -/
def jsonEscTable : List (Char × Char) :=
  [('"', '"'), ('\\', '\\'), ('/', '/'), ('n', '\n'), ('t', '\t'), ('r', '\r'),
    ('b', Char.ofNat 8), ('f', Char.ofNat 12)]

/-- Translate a JSON escape character to the character it denotes. -/
def jsonEscChar (c : Char) : Option Char :=
  (jsonEscTable.find? (fun pr => pr.1 == c)).map (fun pr => pr.2)

/-- The numeric value of one hexadecimal digit. -/
def hexVal (c : Char) : Option Nat :=
  if c.isDigit then some (c.toNat - 48)
  else if 'a' ≤ c ∧ c ≤ 'f' then some (c.toNat - 87)
  else if 'A' ≤ c ∧ c ≤ 'F' then some (c.toNat - 55)
  else none

/-- Parse the body of a JSON string literal (the opening quote already
consumed), returning the decoded characters and the rest of the input.
Raw control characters are refused, as by `json.loads` in strict mode;
a `\u` escape decodes its code point, the surrogate range excepted. -/
def parseJString : Nat → List Char → Option (List Char × List Char)
  | 0, _ => none
  | _ + 1, [] => none
  | fuel + 1, c :: rest =>
    if c == '"' then some ([], rest)
    else if c == '\\' then
      match rest with
      | [] => none
      | 'u' :: h1 :: h2 :: h3 :: h4 :: rest2 =>
        match hexVal h1, hexVal h2, hexVal h3, hexVal h4 with
        | some a, some b, some d, some e =>
          let n := ((a * 16 + b) * 16 + d) * 16 + e
          if 55296 ≤ n ∧ n ≤ 57343 then none
          else (parseJString fuel rest2).map (fun pr => (Char.ofNat n :: pr.1, pr.2))
        | _, _, _, _ => none
      | e :: rest2 =>
        match jsonEscChar e with
        | some d => (parseJString fuel rest2).map (fun pr => (d :: pr.1, pr.2))
        | none => none
    else if c.toNat < 32 then none
    else (parseJString fuel rest).map (fun pr => (c :: pr.1, pr.2))

/-- Skip JSON whitespace. -/
def skipWs (l : List Char) : List Char := l.dropWhile isJsonWs

/-- A JSON value as produced by `json.loads`: null, the booleans,
numbers (kept as their source lexeme, since the program never computes
with them), strings, arrays and objects.  Object entries keep insertion
order; a duplicate key keeps its first position and takes its last
value, as in a Python dict. -/
inductive JsonValue where
  | jnull
  | jtrue
  | jfalse
  | jnum (lexeme : String)
  | jstr (s : String)
  | jarr (elems : List JsonValue)
  | jobj (entries : List (String × JsonValue))

/-- The digits prefix of the input and the remainder. -/
def digitSpan (l : List Char) : List Char × List Char :=
  (l.takeWhile Char.isDigit, l.dropWhile Char.isDigit)

/-- The optional fraction part of a JSON number: a dot must be followed
by at least one digit. -/
def jsonFracPart (l : List Char) : Option (List Char × List Char) :=
  match l with
  | '.' :: r =>
    let pr := digitSpan r
    if pr.1.isEmpty then none else some ('.' :: pr.1, pr.2)
  | _ => some ([], l)

/-- The optional exponent part of a JSON number. -/
def jsonExpPart (l : List Char) : Option (List Char × List Char) :=
  match l with
  | c :: r =>
    if c == 'e' || c == 'E' then
      let sg : List Char × List Char :=
        match r with
        | s :: r2 => if s == '+' || s == '-' then ([s], r2) else ([], r)
        | [] => ([], r)
      let pr := digitSpan sg.2
      if pr.1.isEmpty then none else some (c :: (sg.1 ++ pr.1), pr.2)
    else some ([], l)
  | [] => some ([], l)

/-- Scan a JSON number at the head of the input, returning its lexeme
and the remainder; leading zeros are refused, as in RFC 8259. -/
def parseJNumber (l : List Char) : Option (List Char × List Char) :=
  let sg : List Char × List Char :=
    match l with
    | '-' :: r => (['-'], r)
    | _ => ([], l)
  match sg.2 with
  | c :: r =>
    let intPart : Option (List Char × List Char) :=
      if c == '0' then some ([c], r)
      else if c.isDigit then
        let pr := digitSpan r
        some (c :: pr.1, pr.2)
      else none
    match intPart with
    | none => none
    | some (ip, r1) =>
      match jsonFracPart r1 with
      | none => none
      | some (fr, r2) =>
        match jsonExpPart r2 with
        | none => none
        | some (ex, r3) => some (sg.1 ++ ip ++ fr ++ ex, r3)
  | [] => none

/-- The mode of the JSON scanner: a value, the remaining elements of an
array, or the remaining members of an object. -/
inductive JParseMode where
  | value
  | arrTail (acc : List JsonValue)
  | objTail (acc : List (String × JsonValue))

/-- Fuel-driven JSON scanner: parses one value, or the tail of an array
or object whose opening token is already consumed and whose leading
whitespace is already skipped. -/
def parseJAux : Nat → JParseMode → List Char → Option (JsonValue × List Char)
  | 0, _, _ => none
  | fuel + 1, JParseMode.value, l =>
    match l with
    | [] => none
    | c :: r =>
      if c == '"' then
        (parseJString (r.length + 1) r).map (fun pr => (JsonValue.jstr ⟨pr.1⟩, pr.2))
      else if c == '[' then
        match skipWs r with
        | ']' :: r2 => some (JsonValue.jarr [], r2)
        | r2 => parseJAux fuel (JParseMode.arrTail []) r2
      else if c == Char.ofNat 123 then
        match skipWs r with
        | d :: r2 =>
          if d == Char.ofNat 125 then some (JsonValue.jobj [], r2)
          else parseJAux fuel (JParseMode.objTail []) (d :: r2)
        | [] => none
      else if startsWithCl ['n', 'u', 'l', 'l'] (c :: r) then
        some (JsonValue.jnull, (c :: r).drop 4)
      else if startsWithCl ['t', 'r', 'u', 'e'] (c :: r) then
        some (JsonValue.jtrue, (c :: r).drop 4)
      else if startsWithCl ['f', 'a', 'l', 's', 'e'] (c :: r) then
        some (JsonValue.jfalse, (c :: r).drop 5)
      else
        match parseJNumber (c :: r) with
        | some (lex, r2) => some (JsonValue.jnum ⟨lex⟩, r2)
        | none => none
  | fuel + 1, JParseMode.arrTail acc, l =>
    match parseJAux fuel JParseMode.value l with
    | none => none
    | some (v, r) =>
      match skipWs r with
      | ',' :: r2 => parseJAux fuel (JParseMode.arrTail (acc ++ [v])) (skipWs r2)
      | ']' :: r2 => some (JsonValue.jarr (acc ++ [v]), r2)
      | _ => none
  | fuel + 1, JParseMode.objTail acc, l =>
    match l with
    | '"' :: r =>
      match parseJString (r.length + 1) r with
      | none => none
      | some (k, r1) =>
        match skipWs r1 with
        | ':' :: r2 =>
          match parseJAux fuel JParseMode.value (skipWs r2) with
          | none => none
          | some (v, r3) =>
            let acc2 := dictSet acc ⟨k⟩ v
            match skipWs r3 with
            | ',' :: r4 => parseJAux fuel (JParseMode.objTail acc2) (skipWs r4)
            | d :: r4 =>
              if d == Char.ofNat 125 then some (JsonValue.jobj acc2, r4) else none
            | [] => none
        | _ => none
    | _ => none

/-- Models `json.loads`: decode the whole input as one JSON value, or
fail with a decode error, returned as `none`.  The fuel is ample: the
scanner consumes at least one character for every two recursion
steps. -/
def json_loads (s : String) : Option JsonValue :=
  match parseJAux (2 * s.data.length + 2) JParseMode.value (skipWs s.data) with
  | some (v, r) => if (skipWs r).isEmpty then some v else none
  | none => none

/-- The entries of a JSON object whose values are all strings, as a
Python str-to-str dict; `none` if any value has another shape. -/
def entriesAsStrings : List (String × JsonValue) → Option (List (String × String))
  | [] => some []
  | (k, v) :: rest =>
    match v with
    | JsonValue.jstr s => (entriesAsStrings rest).map (fun m => (k, s) :: m)
    | _ => none

/-- A decoded value viewed as a flat string-valued object, when it has
that shape. -/
def asStringDict : JsonValue → Option (List (String × String))
  | JsonValue.jobj entries => entriesAsStrings entries
  | _ => none

/-- A successful decode as a flat string-valued object — the shape a
well-formed `data-options` attribute carries.  Used to state the
seeded-merge claim; `json.loads` successes of other shapes are not
collapsed into failure here (see `pyContains`/`pySetItem` for what the
merge loop does with them). -/
def jsonLoadsObj (s : String) : Option (List (String × String)) :=
  (json_loads s).bind asStringDict

/-! ### Markup fragment model

A fragment is modelled by the sub-elements that
`QuestionParser.parse_question_from_html` queries, each optional where
BeautifulSoup's `find` may return nothing.  Text-bearing elements are
modelled by the raw text they contain. -/

/-- One rendered option item (a `div.option-item`): the raw text of its
`span.option-label` child if present, and the raw text following that
span.  `get_text()` on the item concatenates the two parts;
`get_text(strip=True)` strips each part before concatenating. -/
structure OptionItem where
  labelSpan : Option String
  afterText : String
deriving DecidableEq, Repr

/-- The options container (`div.optionsContainer`): its `data-options`
attribute when present, and its rendered `div.option-item` children in
document order. -/
structure OptionsContainer where
  dataOptions : Option String
  items : List OptionItem
deriving DecidableEq, Repr

/-- A question-card fragment as seen by the parser.  `questionMeta` and
`answerDiv` are two-level: the outer `Option` is the presence of the
containing div, the inner `Option` the presence of the span inside it. -/
structure Fragment where
  hasWrapper : Bool
  questionType : Option String
  questionText : Option String
  optionsContainer : Option OptionsContainer
  questionMeta : Option (Option String)
  answerDiv : Option (Option String)
  knowledgePoint : Option String
deriving DecidableEq, Repr

/-- The canonical question record over which the normalizer operates:
its options slot is a label-to-text dict, the shape a well-formed
fragment produces. -/
structure Question where
  type : String
  question : String
  options : List (String × String)
  source : String
  correct_answer : String
  knowledge_point : String
deriving DecidableEq, Repr

/-- The raw record dict built by the parser: as `Question`, except that
the options slot holds whatever Python value option extraction produced
(a decoded non-object value can survive the merge loop when every
non-empty rendered label is contained in it). -/
structure ParsedQuestion where
  type : String
  question : String
  options : JsonValue
  source : String
  correct_answer : String
  knowledge_point : String

/-- The option label extracted from one rendered item:
`label_element.get_text(strip=True).rstrip(':')` when the label span is
present, `""` otherwise. -/
def itemLabel (it : OptionItem) : String :=
  match it.labelSpan with
  | some s => pyRstripChar (pyStrip s) ':'
  | none => ""

/-- The full text of one rendered item as `get_text()` returns it:
the concatenation of the label-span text and the following text. -/
def itemFullText (it : OptionItem) : String :=
  ⟨(it.labelSpan.getD "").data ++ it.afterText.data⟩

/-- The option text extracted from one rendered item:
`item.get_text(strip=True)[3:] if item.get_text() else ""`.
`get_text(strip=True)` strips each text piece and concatenates. -/
def itemText (it : OptionItem) : String :=
  if itemFullText it ≠ "" then
    strDrop ⟨stripCl (it.labelSpan.getD "").data ++ stripCl it.afterText.data⟩ 3
  else ""

/-- The fallback loop over rendered items: `options_data[label] = text`
on a fresh Python dict, for every item in document order (lines 46-51
and 54-59 of parser.py); the inserted texts are Python strings. -/
def parseOptionItems (items : List OptionItem) (acc : List (String × JsonValue)) :
    List (String × JsonValue) :=
  items.foldl (fun d it => dictSet d (itemLabel it) (JsonValue.jstr (itemText it))) acc

/-- Models Python's `label in options_data` for the values `json.loads`
can produce: key membership for a dict, element comparison for a list,
substring test for a string; `None`, booleans and numbers support no
membership test — the `TypeError` the merge loop does not catch. -/
def pyContains : JsonValue → String → Except Unit Bool
  | JsonValue.jobj entries, label => Except.ok (dictContains entries label)
  | JsonValue.jarr elems, label =>
    Except.ok (elems.any (fun v =>
      match v with
      | JsonValue.jstr s => s == label
      | _ => false))
  | JsonValue.jstr s, label => Except.ok (pyInStr label s)
  | _, _ => Except.error ()

/-- Models Python's `options_data[label] = text`: assignment for a
dict; a string index into a list or a string raises a `TypeError`. -/
def pySetItem : JsonValue → String → String → Except Unit JsonValue
  | JsonValue.jobj entries, label, text =>
    Except.ok (JsonValue.jobj (dictSet entries label (JsonValue.jstr text)))
  | _, _, _ => Except.error ()

/-- The merge loop (lines 62-68 of parser.py) over whatever value
`options_data` holds: for each rendered item with a non-empty label
(`if label and ...` short-circuits on the empty label), test membership
and assign when absent, never overwriting; a `TypeError` from either
operation propagates uncaught. -/
def addMissingItemsJ : List OptionItem → JsonValue → Except Unit JsonValue
  | [], v => Except.ok v
  | it :: rest, v =>
    if itemLabel it ≠ "" then
      match pyContains v (itemLabel it) with
      | Except.error e => Except.error e
      | Except.ok true => addMissingItemsJ rest v
      | Except.ok false =>
        match pySetItem v (itemLabel it) (itemText it) with
        | Except.error e => Except.error e
        | Except.ok v2 => addMissingItemsJ rest v2
    else addMissingItemsJ rest v

/-- The merge loop restricted to a dict, as a pure fold: this is what
`addMissingItemsJ` computes on an object value, where no `TypeError`
can arise. -/
def addMissingJ (items : List OptionItem) (d : List (String × JsonValue)) :
    List (String × JsonValue) :=
  items.foldl
    (fun d it =>
      if itemLabel it ≠ "" ∧ dictContains d (itemLabel it) = false then
        dictSet d (itemLabel it) (JsonValue.jstr (itemText it))
      else d)
    d

/-- Option extraction (lines 36-68 of parser.py): decode the
`data-options` attribute after replacing `&quot;` by a double quote —
falling back to the rendered items only on absence, emptiness or a
decode error — then run the merge loop, whose `TypeError` on a decoded
non-object value propagates. -/
def extractOptions (oc : OptionsContainer) : Except Unit JsonValue :=
  let base : JsonValue :=
    match oc.dataOptions with
    | some a =>
      if a ≠ "" then
        match json_loads (pyReplace a "&quot;" "\"") with
        | some v => v
        | none => JsonValue.jobj (parseOptionItems oc.items [])
      else JsonValue.jobj (parseOptionItems oc.items [])
    | none => JsonValue.jobj (parseOptionItems oc.items [])
  addMissingItemsJ oc.items base

/-- `QuestionParser.parse_question_from_html`: `ok none` when the
question-card wrapper is absent, an uncaught `TypeError` when the merge
loop raises one, and otherwise a record whose fields default to empty
when their elements are missing. -/
def parse_question_from_html (f : Fragment) : Except Unit (Option ParsedQuestion) :=
  if f.hasWrapper then
    match (match f.optionsContainer with
           | some oc => extractOptions oc
           | none => Except.ok (JsonValue.jobj [])) with
    | Except.error e => Except.error e
    | Except.ok opts =>
      Except.ok (some
        { type := (f.questionType.map pyStrip).getD ""
          question := (f.questionText.map pyStrip).getD ""
          options := opts
          source := ((f.questionMeta.getD none).map pyStrip).getD ""
          correct_answer := ((f.answerDiv.getD none).map pyStrip).getD ""
          knowledge_point := (f.knowledgePoint.map pyStrip).getD "" })
  else Except.ok none

/-! ### Normalizer (src/crawler/crawler.py) -/

/-- The fixed set of answers meaning "true" in
`convert_judgment_to_choice`. -/
def judgmentTrue : List String := ["正确", "是", "对", "1", "True", "Y", "T", "A"]

/-- The fixed set of answers meaning "false" in
`convert_judgment_to_choice`. -/
def judgmentFalse : List String := ["错误", "否", "不对", "0", "False", "N", "F", "B"]

/-- `QuestionCrawler.convert_judgment_to_choice` (crawler.py lines
152-176): overwrite options A and B with the fixed texts, then remap the
answer: trimmed answer in the true set or containing "A" gives "A", else
in the false set or containing "B" gives "B", else unchanged. -/
def convert_judgment_to_choice (q : Question) : Question :=
  let original_answer := pyStrip q.correct_answer
  let options := dictSet (dictSet q.options "A" "正确") "B" "错误"
  let ca :=
    if original_answer ∈ judgmentTrue ∨ pyInStr "A" original_answer = true then "A"
    else if original_answer ∈ judgmentFalse ∨ pyInStr "B" original_answer = true then "B"
    else q.correct_answer
  { q with options := options, correct_answer := ca }

/-- The multi-select answer cleanup of `process_questions` (crawler.py
line 142): six successive `str.replace` calls deleting brackets, spaces,
quotes and commas. -/
def stripMultiAnswer (s : String) : String :=
  pyReplace
    (pyReplace
      (pyReplace (pyReplace (pyReplace (pyReplace s "[" "") "]" "") " " "")
        "\"" "")
      ⟨[Char.ofNat 39]⟩ "")
    "," ""

/-- The per-record body of the `process_questions` loop (crawler.py
lines 135-142): judgment conversion for judgment records, then answer
cleanup for multi-select records. -/
def processRecord (q : Question) : Question :=
  let q1 := if q.type = "判断题" then convert_judgment_to_choice q else q
  if q1.type = "多选题" then { q1 with correct_answer := stripMultiAnswer q1.correct_answer }
  else q1

/-- `QuestionCrawler.process_questions` (crawler.py lines 126-150):
normalize each record and partition the batch into records with a
non-empty trimmed answer and records without one, preserving order. -/
def process_questions : List Question → List Question × List Question
  | [] => ([], [])
  | q :: rest =>
    let q2 := processRecord q
    let pr := process_questions rest
    if pyStrip q2.correct_answer = "" then (pr.1, q2 :: pr.2)
    else (q2 :: pr.1, pr.2)


/-- The six characters deleted from a multi-select answer by the
cleanup on crawler.py line 142: bracket pair, space, the two quote
characters and the comma. -/
def isStrippedChar (c : Char) : Bool :=
  c == '[' || c == ']' || c == ' ' || c == '"' || c == Char.ofNat 39 || c == ','

/-! ### Helper lemmas about the dict model -/

theorem dictContains_nil {α : Type} (k : String) :
    dictContains ([] : List (String × α)) k = false := rfl

theorem dictContains_cons {α : Type} (p : String × α) (rest : List (String × α))
    (k : String) :
    dictContains (p :: rest) k = (p.1 == k || dictContains rest k) := by
  simp [dictContains]

theorem dictGet_cons {α : Type} (p : String × α) (rest : List (String × α))
    (k : String) :
    dictGet (p :: rest) k = if p.1 = k then some p.2 else dictGet rest k := by
  unfold dictGet
  by_cases hp : p.1 = k
  · rw [List.find?_cons_of_pos _ (by simpa [beq_iff_eq] using hp), if_pos hp]
    rfl
  · rw [List.find?_cons_of_neg _ (by simpa [beq_iff_eq] using hp), if_neg hp]

theorem dictContains_dictSet_self {α : Type} (d : List (String × α)) (k : String)
    (v : α) : dictContains (dictSet d k v) k = true := by
  induction d with
  | nil => simp [dictSet, dictContains]
  | cons p rest ih =>
    by_cases hp : p.1 = k
    · simp [dictSet, hp, dictContains]
    · simp only [dictSet, if_neg hp, dictContains_cons, ih, Bool.or_true]

theorem dictContains_dictSet_mono {α : Type} (d : List (String × α))
    (k k' : String) (v : α) (h : dictContains d k = true) :
    dictContains (dictSet d k' v) k = true := by
  induction d with
  | nil => simp [dictContains] at h
  | cons p rest ih =>
    rw [dictContains_cons] at h
    by_cases hp : p.1 = k'
    · rcases Bool.or_eq_true _ _ |>.mp h with h1 | h2
      · simp only [beq_iff_eq] at h1
        simp [dictSet, hp, dictContains_cons, ← h1, hp]
      · simp [dictSet, hp, dictContains_cons, h2]
    · rcases Bool.or_eq_true _ _ |>.mp h with h1 | h2
      · simp [dictSet, if_neg hp, dictContains_cons, h1]
      · simp [dictSet, if_neg hp, dictContains_cons, ih h2]

theorem dictContains_dictSet_elim {α : Type} (d : List (String × α))
    (k k' : String) (v : α) (h : dictContains (dictSet d k' v) k = true) :
    k = k' ∨ dictContains d k = true := by
  induction d with
  | nil =>
    simp only [dictSet, dictContains_cons, dictContains_nil, Bool.or_false,
      beq_iff_eq] at h
    exact Or.inl h.symm
  | cons p rest ih =>
    by_cases hp : p.1 = k'
    · simp only [dictSet, if_pos hp, dictContains_cons, beq_iff_eq] at h
      rcases Bool.or_eq_true _ _ |>.mp h with h1 | h2
      · simp only [beq_iff_eq] at h1
        exact Or.inl h1.symm
      · exact Or.inr (by simp [dictContains_cons, h2])
    · simp only [dictSet, if_neg hp, dictContains_cons] at h
      rcases Bool.or_eq_true _ _ |>.mp h with h1 | h2
      · exact Or.inr (by simp [dictContains_cons, h1])
      · rcases ih h2 with h3 | h4
        · exact Or.inl h3
        · exact Or.inr (by simp [dictContains_cons, h4])

theorem dictGet_dictSet_self {α : Type} (d : List (String × α)) (k : String)
    (v : α) : dictGet (dictSet d k v) k = some v := by
  induction d with
  | nil => simp [dictSet, dictGet_cons]
  | cons p rest ih =>
    by_cases hp : p.1 = k
    · simp [dictSet, hp, dictGet_cons]
    · simp only [dictSet, if_neg hp]
      rw [dictGet_cons, if_neg hp]
      exact ih

theorem dictGet_dictSet_ne {α : Type} (d : List (String × α)) (k k' : String)
    (v : α) (hne : k ≠ k') : dictGet (dictSet d k' v) k = dictGet d k := by
  induction d with
  | nil =>
    simp only [dictSet]
    rw [dictGet_cons, if_neg (fun h => hne h.symm)]
  | cons p rest ih =>
    by_cases hp : p.1 = k'
    · simp only [dictSet, if_pos hp]
      rw [dictGet_cons, dictGet_cons, if_neg (fun h => hne h.symm),
        if_neg (fun h : p.1 = k => hne (hp ▸ h).symm)]
    · simp only [dictSet, if_neg hp]
      rw [dictGet_cons, dictGet_cons]
      by_cases hpk : p.1 = k
      · rw [if_pos hpk, if_pos hpk]
      · rw [if_neg hpk, if_neg hpk]
        exact ih

theorem dictSet_eq_of_dictGet {α : Type} (d : List (String × α)) (k : String)
    (v : α) (h : dictGet d k = some v) : dictSet d k v = d := by
  induction d with
  | nil => simp [dictGet, List.find?] at h
  | cons p rest ih =>
    rw [dictGet_cons] at h
    by_cases hp : p.1 = k
    · rw [if_pos hp] at h
      have hv : p.2 = v := by injection h
      simp only [dictSet, if_pos hp]
      rw [← hp, ← hv]
    · rw [if_neg hp] at h
      simp only [dictSet, if_neg hp, ih h]

/-! ### Helper lemmas about the option-merge fold -/

theorem addMissingJ_nil (d : List (String × JsonValue)) : addMissingJ [] d = d := rfl

theorem addMissingJ_cons (it : OptionItem) (its : List OptionItem)
    (d : List (String × JsonValue)) :
    addMissingJ (it :: its) d =
      addMissingJ its
        (if itemLabel it ≠ "" ∧ dictContains d (itemLabel it) = false then
          dictSet d (itemLabel it) (JsonValue.jstr (itemText it))
        else d) := rfl

theorem addMissingJ_contains_mono (its : List OptionItem)
    (d : List (String × JsonValue)) (k : String) (h : dictContains d k = true) :
    dictContains (addMissingJ its d) k = true := by
  induction its generalizing d with
  | nil => exact h
  | cons it rest ih =>
    rw [addMissingJ_cons]
    split
    · exact ih _ (dictContains_dictSet_mono _ _ _ _ h)
    · exact ih _ h

theorem addMissingJ_get_preserved (its : List OptionItem)
    (d : List (String × JsonValue)) (k : String) (h : dictContains d k = true) :
    dictGet (addMissingJ its d) k = dictGet d k := by
  induction its generalizing d with
  | nil => rfl
  | cons it rest ih =>
    rw [addMissingJ_cons]
    split
    · rename_i hcond
      have hne : k ≠ itemLabel it := by
        intro hk
        rw [← hk] at hcond
        rw [hcond.2] at h
        cases h
      rw [ih _ (dictContains_dictSet_mono _ _ _ _ h), dictGet_dictSet_ne _ _ _ _ hne]
    · exact ih _ h

theorem addMissingJ_contains_item (its : List OptionItem)
    (d : List (String × JsonValue)) (it : OptionItem) (hit : it ∈ its)
    (hlab : itemLabel it ≠ "") :
    dictContains (addMissingJ its d) (itemLabel it) = true := by
  induction its generalizing d with
  | nil => cases hit
  | cons a rest ih =>
    rw [addMissingJ_cons]
    rcases List.mem_cons.mp hit with h1 | h2
    · subst h1
      split
      · exact addMissingJ_contains_mono _ _ _ (dictContains_dictSet_self _ _ _)
      · rename_i hcond
        have hcont : dictContains d (itemLabel it) = true := by
          cases hb : dictContains d (itemLabel it) with
          | false => exact absurd ⟨hlab, hb⟩ hcond
          | true => rfl
        exact addMissingJ_contains_mono _ _ _ hcont
    · split
      · exact ih _ h2
      · exact ih _ h2

theorem addMissingItemsJ_obj (items : List OptionItem)
    (d : List (String × JsonValue)) :
    addMissingItemsJ items (JsonValue.jobj d) =
      Except.ok (JsonValue.jobj (addMissingJ items d)) := by
  induction items generalizing d with
  | nil => rfl
  | cons it rest ih =>
    rw [addMissingJ_cons]
    by_cases hlab : itemLabel it ≠ ""
    · simp only [addMissingItemsJ, if_pos hlab, pyContains]
      cases hc : dictContains d (itemLabel it) with
      | true =>
        rw [if_neg (by simp)]
        exact ih d
      | false =>
        rw [if_pos ⟨hlab, rfl⟩]
        simp only [pySetItem]
        exact ih _
    · simp only [addMissingItemsJ, if_neg hlab]
      have hcond : ¬ (itemLabel it ≠ "" ∧ dictContains d (itemLabel it) = false) := by
        intro hx
        exact hlab hx.1
      rw [if_neg hcond]
      exact ih d

theorem dictContains_jstrMap (m : List (String × String)) (k : String) :
    dictContains (m.map (fun p => (p.1, JsonValue.jstr p.2))) k =
      dictContains m k := by
  induction m with
  | nil => rfl
  | cons p rest ih =>
    rw [List.map_cons, dictContains_cons, dictContains_cons, ih]

theorem dictGet_jstrMap (m : List (String × String)) (k : String) :
    dictGet (m.map (fun p => (p.1, JsonValue.jstr p.2))) k =
      (dictGet m k).map JsonValue.jstr := by
  induction m with
  | nil => rfl
  | cons p rest ih =>
    rw [List.map_cons, dictGet_cons, dictGet_cons]
    by_cases hp : p.1 = k
    · simp [hp]
    · simp [hp, ih]

theorem entriesAsStrings_some (entries : List (String × JsonValue))
    (m : List (String × String)) (h : entriesAsStrings entries = some m) :
    entries = m.map (fun p => (p.1, JsonValue.jstr p.2)) := by
  induction entries generalizing m with
  | nil =>
    simp only [entriesAsStrings] at h
    injection h with h
    subst h
    rfl
  | cons p rest ih =>
    obtain ⟨k, v⟩ := p
    cases v with
    | jstr s =>
      simp only [entriesAsStrings] at h
      cases hr : entriesAsStrings rest with
      | none => rw [hr] at h; simp at h
      | some m0 =>
        rw [hr] at h
        simp only [Option.map_some'] at h
        injection h with h
        subst h
        simp only [List.map_cons]
        rw [← ih m0 hr]
    | jnull => simp [entriesAsStrings] at h
    | jtrue => simp [entriesAsStrings] at h
    | jfalse => simp [entriesAsStrings] at h
    | jnum lex => simp [entriesAsStrings] at h
    | jarr elems => simp [entriesAsStrings] at h
    | jobj es => simp [entriesAsStrings] at h

/-! ### Helper lemmas about character replacement -/

theorem replaceAux_single_char (fuel : Nat) (l : List Char) (c : Char)
    (h : l.length ≤ fuel) :
    replaceAux fuel l [c] [] = l.filter (fun a => !(a == c)) := by
  induction fuel generalizing l with
  | zero =>
    cases l with
    | nil => rfl
    | cons a rest => simp at h
  | succ n ih =>
    cases l with
    | nil => rfl
    | cons a rest =>
      simp only [replaceAux]
      have hsw : startsWithCl [c] (a :: rest) = (c == a) := by
        simp [startsWithCl]
      rw [hsw]
      by_cases hc : c = a
      · rw [if_pos (by simp [hc])]
        subst hc
        have hdrop : List.drop (List.length [c]) (c :: rest) = rest := rfl
        rw [hdrop, List.nil_append, ih rest (by simpa using Nat.le_of_succ_le_succ h)]
        rw [List.filter_cons_of_neg (by simp)]
      · rw [if_neg (by simp [hc])]
        rw [ih rest (by simpa using Nat.le_of_succ_le_succ h)]
        rw [List.filter_cons_of_pos (by simp; exact fun he => hc he.symm)]

theorem pyReplace_delete_data (s : String) (c : Char) (pat : String)
    (hp : pat.data = [c]) :
    (pyReplace s pat "").data = s.data.filter (fun a => !(a == c)) := by
  unfold pyReplace
  rw [hp]
  have h0 : ("" : String).data = [] := rfl
  rw [h0]
  exact replaceAux_single_char _ _ _ (Nat.le_refl _)

theorem stripMultiAnswer_data (s : String) :
    (stripMultiAnswer s).data = s.data.filter (fun c => !(isStrippedChar c)) := by
  unfold stripMultiAnswer
  rw [pyReplace_delete_data _ ',' _ rfl,
    pyReplace_delete_data _ (Char.ofNat 39) _ rfl,
    pyReplace_delete_data _ '"' _ rfl,
    pyReplace_delete_data _ ' ' _ rfl,
    pyReplace_delete_data _ ']' _ rfl,
    pyReplace_delete_data _ '[' _ rfl]
  rw [List.filter_filter, List.filter_filter, List.filter_filter, List.filter_filter,
    List.filter_filter]
  apply List.filter_congr
  intro a _
  cases h1 : a == '[' <;> cases h2 : a == ']' <;> cases h3 : a == ' ' <;>
    cases h4 : a == '"' <;> cases h5 : a == Char.ofNat 39 <;> cases h6 : a == ',' <;>
    simp [isStrippedChar, h1, h2, h3, h4, h5, h6]

theorem stripMultiAnswer_idem (s : String) :
    stripMultiAnswer (stripMultiAnswer s) = stripMultiAnswer s := by
  apply String.ext
  rw [stripMultiAnswer_data, stripMultiAnswer_data]
  rw [List.filter_filter]
  apply List.filter_congr
  intro a _
  cases h : isStrippedChar a <;> simp [h]

/-! ### Reduction lemmas for the extractor and the normalizer -/

theorem extractOptions_decoded (oc : OptionsContainer) (a : String)
    (v : JsonValue) (ha : oc.dataOptions = some a) (hne : a ≠ "")
    (hv : json_loads (pyReplace a "&quot;" "\"") = some v) :
    extractOptions oc = addMissingItemsJ oc.items v := by
  obtain ⟨dOpt, items⟩ := oc
  simp only at ha
  subst ha
  simp only [extractOptions, if_pos hne, hv]

theorem extractOptions_decode_failed (oc : OptionsContainer) (a : String)
    (ha : oc.dataOptions = some a) (hne : a ≠ "")
    (hfail : json_loads (pyReplace a "&quot;" "\"") = none) :
    extractOptions oc = extractOptions ⟨none, oc.items⟩ := by
  obtain ⟨dOpt, items⟩ := oc
  simp only at ha
  subst ha
  simp only [extractOptions, if_pos hne, hfail]

theorem extractOptions_ok_of_obj (oc : OptionsContainer)
    (hben : ∀ a v, oc.dataOptions = some a →
      json_loads (pyReplace a "&quot;" "\"") = some v →
      ∃ entries, v = JsonValue.jobj entries) :
    ∃ d, extractOptions oc = Except.ok (JsonValue.jobj d) := by
  obtain ⟨dOpt, items⟩ := oc
  cases dOpt with
  | none =>
    refine ⟨addMissingJ items (parseOptionItems items []), ?_⟩
    simp only [extractOptions]
    exact addMissingItemsJ_obj items _
  | some a =>
    by_cases hne : a = ""
    · subst hne
      refine ⟨addMissingJ items (parseOptionItems items []), ?_⟩
      simp only [extractOptions, if_neg (fun hx : ("" : String) ≠ "" => hx rfl)]
      exact addMissingItemsJ_obj items _
    · cases hv : json_loads (pyReplace a "&quot;" "\"") with
      | none =>
        refine ⟨addMissingJ items (parseOptionItems items []), ?_⟩
        simp only [extractOptions, if_pos hne, hv]
        exact addMissingItemsJ_obj items _
      | some v =>
        obtain ⟨entries, rfl⟩ := hben a v rfl hv
        refine ⟨addMissingJ items entries, ?_⟩
        rw [extractOptions_decoded ⟨some a, items⟩ a _ rfl hne hv]
        exact addMissingItemsJ_obj items entries

theorem processRecord_judgment (q : Question) (h : q.type = "判断题") :
    processRecord q = convert_judgment_to_choice q := by
  unfold processRecord
  rw [if_pos h]
  rw [if_neg]
  intro hm
  have ht : (convert_judgment_to_choice q).type = q.type := rfl
  rw [ht, h] at hm
  exact absurd hm (by decide)

theorem processRecord_multi (q : Question) (h : q.type = "多选题") :
    processRecord q =
      { q with correct_answer := stripMultiAnswer q.correct_answer } := by
  have hne : ¬ q.type = "判断题" := by rw [h]; decide
  unfold processRecord
  rw [if_neg hne, if_pos h]

theorem processRecord_other (q : Question) (h1 : q.type ≠ "判断题")
    (h2 : q.type ≠ "多选题") : processRecord q = q := by
  unfold processRecord
  rw [if_neg h1, if_neg h2]

theorem convert_options (q : Question) :
    (convert_judgment_to_choice q).options =
      dictSet (dictSet q.options "A" "正确") "B" "错误" := rfl

theorem convert_correct_answer (q : Question) :
    (convert_judgment_to_choice q).correct_answer =
      (if pyStrip q.correct_answer ∈ judgmentTrue
          ∨ pyInStr "A" (pyStrip q.correct_answer) = true then "A"
       else if pyStrip q.correct_answer ∈ judgmentFalse
          ∨ pyInStr "B" (pyStrip q.correct_answer) = true then "B"
       else q.correct_answer) := rfl

theorem convert_eq_self_of (q : Question)
    (ho : dictSet (dictSet q.options "A" "正确") "B" "错误" = q.options)
    (hc : (if pyStrip q.correct_answer ∈ judgmentTrue
          ∨ pyInStr "A" (pyStrip q.correct_answer) = true then "A"
        else if pyStrip q.correct_answer ∈ judgmentFalse
          ∨ pyInStr "B" (pyStrip q.correct_answer) = true then "B"
        else q.correct_answer) = q.correct_answer) :
    convert_judgment_to_choice q = q := by
  simp only [convert_judgment_to_choice]
  rw [ho, hc]

theorem convert_idem (q : Question) :
    convert_judgment_to_choice (convert_judgment_to_choice q) =
      convert_judgment_to_choice q := by
  apply convert_eq_self_of
  · rw [convert_options]
    have hA : dictGet (dictSet (dictSet q.options "A" "正确") "B" "错误") "A"
        = some "正确" := by
      rw [dictGet_dictSet_ne _ _ _ _ (show ("A" : String) ≠ "B" by decide),
        dictGet_dictSet_self]
    have hB : dictGet (dictSet (dictSet q.options "A" "正确") "B" "错误") "B"
        = some "错误" := dictGet_dictSet_self _ _ _
    rw [dictSet_eq_of_dictGet _ _ _ hA, dictSet_eq_of_dictGet _ _ _ hB]
  · by_cases h1 : pyStrip q.correct_answer ∈ judgmentTrue
        ∨ pyInStr "A" (pyStrip q.correct_answer) = true
    · have hv : (convert_judgment_to_choice q).correct_answer = "A" := by
        rw [convert_correct_answer, if_pos h1]
      rw [hv]
      decide
    · by_cases h2 : pyStrip q.correct_answer ∈ judgmentFalse
          ∨ pyInStr "B" (pyStrip q.correct_answer) = true
      · have hv : (convert_judgment_to_choice q).correct_answer = "B" := by
          rw [convert_correct_answer, if_neg h1, if_pos h2]
        rw [hv]
        decide
      · have hv : (convert_judgment_to_choice q).correct_answer = q.correct_answer := by
          rw [convert_correct_answer, if_neg h1, if_neg h2]
        rw [hv, if_neg h1, if_neg h2]

theorem process_questions_spec (qs : List Question) :
    (process_questions qs).1 =
      (qs.map processRecord).filter (fun q => !(pyStrip q.correct_answer == ""))
    ∧ (process_questions qs).2 =
      (qs.map processRecord).filter (fun q => pyStrip q.correct_answer == "")
    ∧ (process_questions qs).1.length + (process_questions qs).2.length = qs.length := by
  induction qs with
  | nil => exact ⟨rfl, rfl, rfl⟩
  | cons q rest ih =>
    obtain ⟨ih1, ih2, ih3⟩ := ih
    simp only [process_questions, List.map_cons, List.length_cons]
    by_cases h : pyStrip (processRecord q).correct_answer = ""
    · rw [if_pos h]
      refine ⟨?_, ?_, ?_⟩
      · rw [List.filter_cons_of_neg (by simp [h])]
        exact ih1
      · rw [List.filter_cons_of_pos (by simp [h])]
        simpa using ih2
      · simp only [List.length_cons]
        omega
    · rw [if_neg h]
      refine ⟨?_, ?_, ?_⟩
      · rw [List.filter_cons_of_pos (by simp [h])]
        simpa using ih1
      · rw [List.filter_cons_of_neg (by simp [h])]
        exact ih2
      · simp only [List.length_cons]
        omega

theorem stripCl_cons_space (l : List Char) : stripCl (' ' :: l) = stripCl l := by
  simp [stripCl, List.dropWhile_cons, isSpaceChar]

theorem stripCl_label (c : Char) (hc : isSpaceChar c = false) :
    stripCl [c, ':'] = [c, ':'] := by
  have h2 : isSpaceChar ':' = false := by decide
  simp [stripCl, List.dropWhile_cons, hc, h2]

/-! ### The claims -/

/-- Claim C1: when the options container carries both the encoded
attribute form and rendered items, the result is seeded from a
successful decode of the attribute; every rendered label is afterwards
present in the result, and a label populated from the decode keeps its
decoded value (never overwritten); concretely, encoded
`A maps to x, B maps to y` merged with rendered items A and C yields the
decoded A and B entries plus the rendered C entry. -/
theorem claim_C1_option_merge (oc : OptionsContainer) (a : String)
    (m : List (String × String)) (ha : oc.dataOptions = some a) (hne : a ≠ "")
    (hm : jsonLoadsObj (pyReplace a "&quot;" "\"") = some m) :
    (∃ d, extractOptions oc = Except.ok (JsonValue.jobj d)
      ∧ (∀ k, dictContains m k = true →
          dictGet d k = (dictGet m k).map JsonValue.jstr)
      ∧ (∀ it ∈ oc.items, itemLabel it ≠ "" →
          dictContains d (itemLabel it) = true))
    ∧ extractOptions
        ⟨some "\x7b\"A\": \"x\", \"B\": \"y\"\x7d",
          [⟨some "A:", " ax"⟩, ⟨some "C:", " czz"⟩]⟩ =
      Except.ok (JsonValue.jobj
        [("A", JsonValue.jstr "x"), ("B", JsonValue.jstr "y"),
          ("C", JsonValue.jstr "zz")]) := by
  constructor
  · unfold jsonLoadsObj at hm
    cases hv : json_loads (pyReplace a "&quot;" "\"") with
    | none => rw [hv] at hm; simp at hm
    | some v =>
      rw [hv] at hm
      have hm2 : asStringDict v = some m := hm
      cases v with
      | jobj entries =>
        have hent : entries = m.map (fun p => (p.1, JsonValue.jstr p.2)) :=
          entriesAsStrings_some _ _ hm2
        subst hent
        rw [extractOptions_decoded oc a _ ha hne hv, addMissingItemsJ_obj]
        refine ⟨_, rfl, ?_, ?_⟩
        · intro k hk
          have hck :
              dictContains (m.map fun p => (p.1, JsonValue.jstr p.2)) k = true := by
            rw [dictContains_jstrMap]
            exact hk
          rw [addMissingJ_get_preserved _ _ _ hck, dictGet_jstrMap]
        · intro it hit hlab
          exact addMissingJ_contains_item _ _ _ hit hlab
      | jnull => exact Option.noConfusion hm2
      | jtrue => exact Option.noConfusion hm2
      | jfalse => exact Option.noConfusion hm2
      | jnum lex => exact Option.noConfusion hm2
      | jstr s => exact Option.noConfusion hm2
      | jarr elems => exact Option.noConfusion hm2
  · rfl

/-- Witness for C1 at the concrete example container: the merge keeps
the decoded entries and adds the rendered C entry. -/
theorem claim_C1_witness :
    extractOptions
        ⟨some "\x7b\"A\": \"x\", \"B\": \"y\"\x7d",
          [⟨some "A:", " ax"⟩, ⟨some "C:", " czz"⟩]⟩ =
      Except.ok (JsonValue.jobj
        [("A", JsonValue.jstr "x"), ("B", JsonValue.jstr "y"),
          ("C", JsonValue.jstr "zz")]) :=
  (claim_C1_option_merge
    ⟨some "\x7b\"A\": \"x\", \"B\": \"y\"\x7d",
      [⟨some "A:", " ax"⟩, ⟨some "C:", " czz"⟩]⟩
    "\x7b\"A\": \"x\", \"B\": \"y\"\x7d"
    [("A", "x"), ("B", "y")] rfl (by decide) (by decide)).2

/-- Counterexample to claim C2 as stated: a judgment record with
original answer 错 keeps its answer unchanged — 错 alone is not in the
false-equivalence set (which contains 错误 and 不对 but not 错) and
contains neither A nor B, so the claimed result B is not produced. -/
theorem claim_C2_counterexample :
    (processRecord ⟨"判断题", "q", [], "s", "错", "k"⟩).correct_answer = "错"
    ∧ ("错" : String) ≠ "B" := by decide

/-- Claim C2 (amended): judgment normalization sets options A and B to
the fixed texts, remaps the answer by the stated three-way rule with the
true branch winning ties, and maps 对 to A; the original answer 错,
however, is left unchanged rather than mapped to B. -/
theorem claim_C2_judgment_remap (q : Question) (h : q.type = "判断题") :
    dictGet (processRecord q).options "A" = some "正确"
    ∧ dictGet (processRecord q).options "B" = some "错误"
    ∧ (processRecord q).correct_answer =
        (if pyStrip q.correct_answer ∈ judgmentTrue
            ∨ pyInStr "A" (pyStrip q.correct_answer) = true then "A"
         else if pyStrip q.correct_answer ∈ judgmentFalse
            ∨ pyInStr "B" (pyStrip q.correct_answer) = true then "B"
         else q.correct_answer)
    ∧ (pyInStr "A" (pyStrip q.correct_answer) = true →
        (processRecord q).correct_answer = "A")
    ∧ (processRecord ⟨"判断题", "q", [], "s", "对", "k"⟩).correct_answer = "A"
    ∧ (processRecord ⟨"判断题", "q", [], "s", "错", "k"⟩).correct_answer = "错" := by
  rw [processRecord_judgment q h]
  refine ⟨?_, ?_, convert_correct_answer q, ?_, by decide, by decide⟩
  · rw [convert_options,
      dictGet_dictSet_ne _ _ _ _ (show ("A" : String) ≠ "B" by decide),
      dictGet_dictSet_self]
  · rw [convert_options, dictGet_dictSet_self]
  · intro hA
    rw [convert_correct_answer, if_pos (Or.inr hA)]

/-- Witness for C2 at a concrete judgment record with answer 对. -/
theorem claim_C2_witness :
    dictGet (processRecord ⟨"判断题", "q", [], "s", "对", "k"⟩).options "A"
      = some "正确" :=
  (claim_C2_judgment_remap ⟨"判断题", "q", [], "s", "对", "k"⟩ rfl).1

/-- Counterexample to claim C3 as stated: a judgment record that already
carries a C option and whose answer is X ends with three options, and
its non-empty answer is neither A nor B. -/
theorem claim_C3_counterexample :
    (processRecord ⟨"判断题", "q", [("C", "c")], "s", "X", "k"⟩).options.length ≠ 2
    ∧ pyStrip (processRecord ⟨"判断题", "q", [("C", "c")], "s", "X", "k"⟩).correct_answer
        ≠ ""
    ∧ (processRecord ⟨"判断题", "q", [("C", "c")], "s", "X", "k"⟩).correct_answer ≠ "A"
    ∧ (processRecord ⟨"判断题", "q", [("C", "c")], "s", "X", "k"⟩).correct_answer ≠ "B"
    := by decide

/-- Claim C3 (amended): after normalization a judgment record's options
contain A mapped to the fixed true text and B mapped to the fixed false
text, any further label was already present before normalization, and
the answer ends in the set containing A and B whenever the trimmed
original answer is in an equivalence set or contains A or B. -/
theorem claim_C3_judgment_invariant (q : Question) (h : q.type = "判断题") :
    dictGet (processRecord q).options "A" = some "正确"
    ∧ dictGet (processRecord q).options "B" = some "错误"
    ∧ (∀ k, dictContains (processRecord q).options k = true →
        k = "A" ∨ k = "B" ∨ dictContains q.options k = true)
    ∧ ((pyStrip q.correct_answer ∈ judgmentTrue
        ∨ pyInStr "A" (pyStrip q.correct_answer) = true
        ∨ pyStrip q.correct_answer ∈ judgmentFalse
        ∨ pyInStr "B" (pyStrip q.correct_answer) = true) →
        (processRecord q).correct_answer = "A"
        ∨ (processRecord q).correct_answer = "B") := by
  rw [processRecord_judgment q h]
  refine ⟨?_, ?_, ?_, ?_⟩
  · rw [convert_options,
      dictGet_dictSet_ne _ _ _ _ (show ("A" : String) ≠ "B" by decide),
      dictGet_dictSet_self]
  · rw [convert_options, dictGet_dictSet_self]
  · intro k hk
    rw [convert_options] at hk
    rcases dictContains_dictSet_elim _ _ _ _ hk with hB | hk1
    · exact Or.inr (Or.inl hB)
    · rcases dictContains_dictSet_elim _ _ _ _ hk1 with hA | hk2
      · exact Or.inl hA
      · exact Or.inr (Or.inr hk2)
  · intro hyp
    rw [convert_correct_answer]
    by_cases h1 : pyStrip q.correct_answer ∈ judgmentTrue
        ∨ pyInStr "A" (pyStrip q.correct_answer) = true
    · rw [if_pos h1]
      exact Or.inl rfl
    · have h2 : pyStrip q.correct_answer ∈ judgmentFalse
          ∨ pyInStr "B" (pyStrip q.correct_answer) = true := by
        rcases hyp with hT | hA | hF | hB
        · exact absurd (Or.inl hT) h1
        · exact absurd (Or.inr hA) h1
        · exact Or.inl hF
        · exact Or.inr hB
      rw [if_neg h1, if_pos h2]
      exact Or.inr rfl

/-- Witness for C3 at a concrete judgment record with answer 是. -/
theorem claim_C3_witness :
    dictGet (processRecord ⟨"判断题", "p", [], "s", "是", "k"⟩).options "B"
      = some "错误" :=
  (claim_C3_judgment_invariant ⟨"判断题", "p", [], "s", "是", "k"⟩ rfl).2.1

/-- Counterexample to claim C4 as stated: a rendered item whose label
span reads A followed by a colon and whose following text is a space and
one character yields the empty option text, not that character — the
strip applied before slicing removes the whitespace, so the three-slice
also discards the first character of the text. -/
theorem claim_C4_counterexample :
    parse_question_from_html
        ⟨true, none, none, some ⟨none, [⟨some "A:", " 对"⟩]⟩, none, none, none⟩ =
      Except.ok (some
        ⟨"", "", JsonValue.jobj [("A", JsonValue.jstr "")], "", "", ""⟩)
    ∧ JsonValue.jstr "" ≠ JsonValue.jstr "对" := by
  refine ⟨rfl, ?_⟩
  intro h
  injection h with h
  exact absurd h (by decide)

/-- Claim C4 (amended): for a rendered item in the format of a one-char
label, a colon separator and a space before the text, the extracted
option text is the item's whitespace-stripped rendered text with its
first three characters discarded; since stripping already removed the
separator whitespace, this equals the text with its first character
discarded, not the full text. -/
theorem claim_C4_item_text (c : Char) (t : String) (hc : isSpaceChar c = false)
    (ht : pyStrip t = t) :
    itemText ⟨some ⟨[c, ':']⟩, ⟨' ' :: t.data⟩⟩ = strDrop t 1 := by
  have hdata : stripCl t.data = t.data := congrArg String.data ht
  have hfull : itemFullText ⟨some ⟨[c, ':']⟩, ⟨' ' :: t.data⟩⟩ ≠ "" := by
    intro hS
    have hd := congrArg String.data hS
    simp [itemFullText] at hd
  unfold itemText
  rw [if_pos hfull]
  show strDrop ⟨stripCl [c, ':'] ++ stripCl (' ' :: t.data)⟩ 3 = strDrop t 1
  rw [stripCl_label c hc, stripCl_cons_space, hdata]
  show (⟨List.drop 3 (c :: ':' :: t.data)⟩ : String) = ⟨t.data.drop 1⟩
  rfl

/-- Witness for C4 at a concrete two-character text. -/
theorem claim_C4_witness :
    itemText ⟨some ⟨['A', ':']⟩, ⟨' ' :: ("对对" : String).data⟩⟩ = strDrop "对对" 1 :=
  claim_C4_item_text 'A' "对对" (by decide) (by decide)

/-- Claim C5: the batch partition is total, exclusive and stable — the
answered output is the order-preserving sub-list of normalized records
with a non-empty trimmed answer, the answer-missing output the
complementary sub-list, no record is dropped; the three-record example
with answers A, empty and blank partitions as claimed. -/
theorem claim_C5_partition (qs : List Question) :
    (process_questions qs).1 =
      (qs.map processRecord).filter (fun q => !(pyStrip q.correct_answer == ""))
    ∧ (process_questions qs).2 =
      (qs.map processRecord).filter (fun q => pyStrip q.correct_answer == "")
    ∧ (process_questions qs).1.length + (process_questions qs).2.length = qs.length
    ∧ process_questions
        [⟨"单选题", "q1", [], "s", "A", "k"⟩, ⟨"单选题", "q2", [], "s", "", "k"⟩,
          ⟨"单选题", "q3", [], "s", "  ", "k"⟩] =
      ([⟨"单选题", "q1", [], "s", "A", "k"⟩],
        [⟨"单选题", "q2", [], "s", "", "k"⟩, ⟨"单选题", "q3", [], "s", "  ", "k"⟩]) := by
  obtain ⟨h1, h2, h3⟩ := process_questions_spec qs
  exact ⟨h1, h2, h3, by decide⟩

/-- Claim C6: multi-select normalization deletes exactly the bracket,
space, quote and comma characters from the answer and changes no other
field; the bracketed list of A, B, C becomes the string ABC. -/
theorem claim_C6_multiselect (q : Question) (h : q.type = "多选题") :
    (processRecord q).correct_answer.data =
      q.correct_answer.data.filter (fun c => !(isStrippedChar c))
    ∧ (processRecord q).type = q.type
    ∧ (processRecord q).question = q.question
    ∧ (processRecord q).options = q.options
    ∧ (processRecord q).source = q.source
    ∧ (processRecord q).knowledge_point = q.knowledge_point
    ∧ (processRecord ⟨"多选题", "q", [], "s", "[\"A\", \"B\", \"C\"]", "k"⟩).correct_answer
        = "ABC" := by
  rw [processRecord_multi q h]
  exact ⟨stripMultiAnswer_data _, rfl, rfl, rfl, rfl, rfl, by decide⟩

/-- Witness for C6 at a concrete multi-select record. -/
theorem claim_C6_witness :
    (processRecord ⟨"多选题", "q", [], "s", "[\"A\"]", "k"⟩).correct_answer.data =
      ("[\"A\"]" : String).data.filter (fun c => !(isStrippedChar c)) :=
  (claim_C6_multiselect ⟨"多选题", "q", [], "s", "[\"A\"]", "k"⟩ rfl).1

/-- Counterexample to claim C7 as stated: the missing wrapper is not
the only hard failure — a wrapper-present fragment whose encoded
attribute is the valid JSON value null (decoding succeeds, so the
catch of the decode error does not fire) and which carries a rendered
item with a non-empty label makes the merge loop evaluate a membership
test on None, an uncaught TypeError: extraction aborts with no
record. -/
theorem claim_C7_counterexample :
    parse_question_from_html
        ⟨true, none, none, some ⟨some "null", [⟨some "A:", " x"⟩]⟩,
          none, none, none⟩ =
      Except.error ()
    ∧ json_loads "null" = some JsonValue.jnull := ⟨rfl, rfl⟩

/-- Claim C7 (amended): a fragment without the question-card wrapper
extracts to none, and a fragment with the wrapper yields a record in
which each missing inner element defaults to the empty string or empty
mapping — provided the encoded options attribute, when present and
decodable, decodes to a JSON object; an attribute decoding to a
non-object value can instead abort extraction with an uncaught
TypeError from the merge loop, so the missing wrapper is not the only
hard failure. -/
theorem claim_C7_missing_wrapper (f : Fragment)
    (hben : ∀ oc a v, f.optionsContainer = some oc → oc.dataOptions = some a →
      json_loads (pyReplace a "&quot;" "\"") = some v →
      ∃ entries, v = JsonValue.jobj entries) :
    (f.hasWrapper = false → parse_question_from_html f = Except.ok none)
    ∧ (f.hasWrapper = true →
        ∃ q, parse_question_from_html f = Except.ok (some q)
        ∧ (f.questionType = none → q.type = "")
        ∧ (f.questionText = none → q.question = "")
        ∧ (f.optionsContainer = none → q.options = JsonValue.jobj [])
        ∧ (f.questionMeta = none ∨ f.questionMeta = some none → q.source = "")
        ∧ (f.answerDiv = none ∨ f.answerDiv = some none → q.correct_answer = "")
        ∧ (f.knowledgePoint = none → q.knowledge_point = "")) := by
  constructor
  · intro h
    simp [parse_question_from_html, h]
  · intro h
    cases hoc : f.optionsContainer with
    | none =>
      simp only [parse_question_from_html, h, if_true, hoc]
      refine ⟨_, rfl, ?_, ?_, ?_, ?_, ?_, ?_⟩
      · intro hx; rw [hx]; rfl
      · intro hx; rw [hx]; rfl
      · intro _; rfl
      · rintro (hx | hx) <;> rw [hx] <;> rfl
      · rintro (hx | hx) <;> rw [hx] <;> rfl
      · intro hx; rw [hx]; rfl
    | some oc =>
      obtain ⟨d, hd⟩ :=
        extractOptions_ok_of_obj oc (fun a v ha hv => hben oc a v hoc ha hv)
      simp only [parse_question_from_html, h, if_true, hoc, hd]
      refine ⟨_, rfl, ?_, ?_, ?_, ?_, ?_, ?_⟩
      · intro hx; rw [hx]; rfl
      · intro hx; rw [hx]; rfl
      · intro hx; exact Option.noConfusion hx
      · rintro (hx | hx) <;> rw [hx] <;> rfl
      · rintro (hx | hx) <;> rw [hx] <;> rfl
      · intro hx; rw [hx]; rfl

/-- Witness for C7 at the all-empty wrapped fragment. -/
theorem claim_C7_witness :
    parse_question_from_html ⟨true, none, none, none, none, none, none⟩ =
      Except.ok (some ⟨"", "", JsonValue.jobj [], "", "", ""⟩) := by
  obtain ⟨q, hq, h1, h2, h3, h4, h5, h6⟩ :=
    (claim_C7_missing_wrapper ⟨true, none, none, none, none, none, none⟩
      (fun oc a v hoc _ _ => Option.noConfusion hoc)).2 rfl
  rw [hq]
  have e1 := h1 rfl
  have e2 := h2 rfl
  have e3 := h3 rfl
  have e4 := h4 (Or.inl rfl)
  have e5 := h5 (Or.inl rfl)
  have e6 := h6 rfl
  cases q
  simp only at e1 e2 e3 e4 e5 e6
  subst e1 e2 e3 e4 e5 e6
  rfl

/-- Claim C8: a syntactically invalid encoded attribute is never a hard
error — the escaped quote sequences are unescaped before decoding, a
decode error is caught and silently falls back to parsing the rendered
items, and the result then equals the extraction with no encoded
attribute at all. -/
theorem claim_C8_malformed_options (oc : OptionsContainer) (a : String)
    (ha : oc.dataOptions = some a) (hne : a ≠ "")
    (hfail : json_loads (pyReplace a "&quot;" "\"") = none) :
    extractOptions oc = extractOptions ⟨none, oc.items⟩
    ∧ json_loads (pyReplace "\x7b&quot;A&quot;: &quot;x&quot;\x7d" "&quot;" "\"")
        = some (JsonValue.jobj [("A", JsonValue.jstr "x")])
    ∧ json_loads (pyReplace "\x7binvalid" "&quot;" "\"") = none
    ∧ extractOptions
        ⟨some "\x7binvalid", [⟨some "A:", " aaa"⟩, ⟨some "B:", " bbb"⟩]⟩ =
      extractOptions ⟨none, [⟨some "A:", " aaa"⟩, ⟨some "B:", " bbb"⟩]⟩ :=
  ⟨extractOptions_decode_failed oc a ha hne hfail, rfl, rfl, rfl⟩

/-- Witness for C8 at a concrete syntactically invalid attribute. -/
theorem claim_C8_witness :
    extractOptions ⟨some "\x7bbad", [⟨some "A:", " aa"⟩]⟩ =
      extractOptions ⟨none, [⟨some "A:", " aa"⟩]⟩ :=
  (claim_C8_malformed_options ⟨some "\x7bbad", [⟨some "A:", " aa"⟩]⟩ "\x7bbad" rfl
    (by decide) rfl).1

/-- Claim C9: normalization never changes the prompt, source,
knowledge-point or kind of a record, and a record that is neither a
judgment nor a multi-select record passes through unchanged. -/
theorem claim_C9_frame (q : Question) :
    (processRecord q).question = q.question
    ∧ (processRecord q).source = q.source
    ∧ (processRecord q).knowledge_point = q.knowledge_point
    ∧ (processRecord q).type = q.type
    ∧ (q.type ≠ "判断题" → q.type ≠ "多选题" → processRecord q = q) := by
  by_cases h1 : q.type = "判断题"
  · rw [processRecord_judgment q h1]
    exact ⟨rfl, rfl, rfl, rfl, fun hc _ => absurd h1 hc⟩
  · by_cases h2 : q.type = "多选题"
    · rw [processRecord_multi q h2]
      exact ⟨rfl, rfl, rfl, rfl, fun _ hc => absurd h2 hc⟩
    · rw [processRecord_other q h1 h2]
      exact ⟨rfl, rfl, rfl, rfl, fun _ _ => rfl⟩

/-- Witness for C9 at a concrete single-choice record. -/
theorem claim_C9_witness :
    processRecord ⟨"单选题", "q", [], "s", "A", "k"⟩ =
      ⟨"单选题", "q", [], "s", "A", "k"⟩ :=
  (claim_C9_frame ⟨"单选题", "q", [], "s", "A", "k"⟩).2.2.2.2 (by decide) (by decide)

/-- Claim C10: the per-record normalization transform is idempotent. -/
theorem claim_C10_idempotent (q : Question) :
    processRecord (processRecord q) = processRecord q := by
  by_cases h1 : q.type = "判断题"
  · rw [processRecord_judgment q h1,
      processRecord_judgment _ (show (convert_judgment_to_choice q).type = "判断题" from h1)]
    exact convert_idem q
  · by_cases h2 : q.type = "多选题"
    · rw [processRecord_multi q h2,
        processRecord_multi _
          (show ({ q with correct_answer := stripMultiAnswer q.correct_answer }
            : Question).type = "多选题" from h2)]
      simp [stripMultiAnswer_idem]
    · rw [processRecord_other q h1 h2, processRecord_other q h1 h2]
